import Mathlib

/-!
Shallow embedding of the segment-task window and playback synchronization
engine of rovel-desk (src/state.rs, src/systems.rs).

Modelling conventions:
* Rust `u32`/`usize` values are `Nat`; wherever the source performs `u32`
  arithmetic that can overflow, or an `as u32` cast, we reduce modulo
  `u32Mod = 2^32` (release-mode wrapping semantics).
* `std::time::Instant` is a `Nat` timestamp passed explicitly (`now`);
  `Instant::elapsed` at time `now` for a task created at `c` is `now - c`.
* The `HashMap<u32, SegmentTask>` task table is a function
  `Nat → Option SegmentTask`.
* Fallible network calls and event emission are modelled by handlers
  returning the mutated state together with the list of requests they send.
-/

/-- The u32 modulus, 2^32. -/
def u32Mod : Nat := 4294967296

/-- Task state of one segment synthesis task (state.rs `TaskState`). -/
inductive TaskState where
  | Pending
  | Inferring
  | Ready
  | Failed
  | Cancelled
deriving DecidableEq, Repr

/-- Mirrors `impl From<&str> for TaskState` in state.rs: unknown strings map to Pending. -/
def TaskState.fromString (s : String) : TaskState :=
  if s = "pending" then .Pending
  else if s = "inferring" then .Inferring
  else if s = "ready" then .Ready
  else if s = "failed" then .Failed
  else if s = "cancelled" then .Cancelled
  else .Pending

/-- One segment's task entry (state.rs `SegmentTask`). -/
structure SegmentTask where
  session_id : String
  task_id : String
  segment_index : Nat
  state : TaskState
  duration_ms : Option Nat
  error : Option String
  created_at : Nat
deriving DecidableEq, Repr

/-- The task table: `HashMap<u32, SegmentTask>` keyed by segment index. -/
abbrev Table := Nat → Option SegmentTask

/-- The empty task table. -/
def emptyTable : Table := fun _ => none

/-- Mirrors `HashMap::insert` on the task table. -/
def insertTask (idx : Nat) (t : SegmentTask) (tbl : Table) : Table :=
  fun j => if j = idx then some t else tbl j

/-- Task manager state (state.rs `TaskManager`). -/
structure TaskManager where
  tasks : Table
  prefetch_ahead : Nat

/-- Mirrors `TaskManager::new`. -/
def TaskManager.new (prefetch_ahead : Nat) : TaskManager :=
  { tasks := emptyTable, prefetch_ahead := prefetch_ahead }

/-- Mirrors `TaskManager::clear`. -/
def TaskManager.clear (tm : TaskManager) : TaskManager :=
  { tm with tasks := emptyTable }

/-- Mirrors `TaskManager::calculate_prefetch_range`: the loop
`for i in current_index..min(current_index + prefetch_ahead + 1, total)`
collecting indices absent from the table.  The sum is u32 addition, hence
the `% u32Mod`. -/
def TaskManager.calculate_prefetch_range (tm : TaskManager)
    (current_index total_segments : Nat) : List Nat :=
  let e := min ((current_index + tm.prefetch_ahead + 1) % u32Mod) total_segments
  (List.range' current_index (e - current_index)).filter fun i => (tm.tasks i).isNone

/-- Mirrors `TaskManager::is_segment_ready`. -/
def TaskManager.is_segment_ready (tm : TaskManager) (segment_index : Nat) : Bool :=
  ((tm.tasks segment_index).map fun t => decide (t.state = TaskState.Ready)).getD false

/-- The fresh Pending entry inserted by `add_pending_tasks` for index `idx`. -/
def pendingTask (now : Nat) (session_id : String) (idx : Nat) : SegmentTask :=
  { session_id := session_id
    task_id := ""
    segment_index := idx
    state := .Pending
    duration_ms := none
    error := none
    created_at := now }

/-- Table-level body of `TaskManager::add_pending_tasks`: for each index,
skip it when an entry already exists, otherwise insert a fresh Pending entry
stamped `now`. -/
def addPendingTasks (now : Nat) (session_id : String) (indices : List Nat)
    (tbl : Table) : Table :=
  indices.foldl
    (fun t idx =>
      if (t idx).isSome then t else insertTask idx (pendingTask now session_id idx) t)
    tbl

/-- Mirrors `TaskManager::add_pending_tasks`. -/
def TaskManager.add_pending_tasks (tm : TaskManager) (now : Nat) (session_id : String)
    (indices : List Nat) : TaskManager :=
  { tm with tasks := addPendingTasks now session_id indices tm.tasks }

/-- WebSocket push event (api.rs `WsEvent`). -/
inductive WsEvent where
  | TaskStateChanged (session_id task_id : String) (segment_index : Nat)
      (state : String) (duration_ms : Option Nat) (error : Option String)
  | SessionClosed (session_id reason : String)

/-- Table-level body of `TaskManager::update_task_state`: apply a push event,
discarding it when its session id differs from the current one; update the
existing entry (fields `task_id`, `state`, `duration_ms`, `error`,
`created_at`) or insert a fresh entry when the index is absent. -/
def updateTaskState (now : Nat) (current_session_id : String) (event : WsEvent)
    (tbl : Table) : Table :=
  match event with
  | .TaskStateChanged session_id task_id segment_index state duration_ms error =>
    if session_id ≠ current_session_id then tbl
    else
      match tbl segment_index with
      | some task =>
        if task.session_id ≠ session_id then tbl
        else
          insertTask segment_index
            { task with
              task_id := task_id
              state := TaskState.fromString state
              duration_ms := duration_ms
              error := error
              created_at := now } tbl
      | none =>
        insertTask segment_index
          { session_id := session_id
            task_id := task_id
            segment_index := segment_index
            state := TaskState.fromString state
            duration_ms := duration_ms
            error := error
            created_at := now } tbl
  | .SessionClosed _ _ => tbl

/-- Mirrors `TaskManager::update_task_state`. -/
def TaskManager.update_task_state (tm : TaskManager) (now : Nat)
    (current_session_id : String) (event : WsEvent) : TaskManager :=
  { tm with tasks := updateTaskState now current_session_id event tm.tasks }

/-- Table-level body of `TaskManager::cleanup_stale_pending`: retain every
entry except those in Pending state whose age exceeds the timeout. -/
def cleanupStalePending (now timeout_secs : Nat) (tbl : Table) : Table :=
  fun i =>
    match tbl i with
    | some task =>
      if task.state = TaskState.Pending ∧ now - task.created_at > timeout_secs then none
      else some task
    | none => none

/-- Mirrors `TaskManager::cleanup_stale_pending`. -/
def TaskManager.cleanup_stale_pending (tm : TaskManager) (now timeout_secs : Nat) :
    TaskManager :=
  { tm with tasks := cleanupStalePending now timeout_secs tm.tasks }

/-- Playback state machine states (state.rs `PlaybackState`). -/
inductive PlaybackState where
  | Stopped
  | Playing
  | Paused
  | Loading
deriving DecidableEq, Repr

/-- The active session (state.rs `CurrentSession`); `Uuid`s are `Nat`. -/
structure CurrentSession where
  session_id : String
  novel_id : Nat
  voice_id : Nat
  current_index : Nat
deriving DecidableEq, Repr

/-- One entry of a submission-acknowledgement batch (api.rs `TaskInfo`). -/
structure TaskInfo where
  task_id : String
  segment_index : Nat
  state : String
deriving DecidableEq, Repr

/-- The slice of `AppState` the claims are about: session, task table,
playback machine and the pagination total. -/
structure EngineState where
  current_session : Option CurrentSession
  task_manager : TaskManager
  playback_state : PlaybackState
  waiting_for_audio : Bool
  current_segment_index : Nat
  total_segments : Nat
  error : Option String

/-- Requests a handler emits towards the transport collaborator; requests
irrelevant to the claims (segment loading, WebSocket connect) are omitted. -/
inductive Req where
  | SubmitInfer (session_id : String) (segment_indices : List Nat)
  | LoadAudio (novel_id segment_index voice_id : Nat)
deriving DecidableEq, Repr

/-- systems.rs `handle_api_responses`, `ApiResponse::PlayStarted` arm:
fresh session, fresh task manager (`init_task_manager` uses ahead = 3),
playback Loading, waiting for audio. -/
def handlePlayStarted (session_id : String) (novel_id voice_id current_index : Nat)
    (st : EngineState) : EngineState × List Req :=
  ({ st with
      current_session := some
        { session_id := session_id
          novel_id := novel_id
          voice_id := voice_id
          current_index := current_index }
      current_segment_index := current_index
      playback_state := .Loading
      waiting_for_audio := true
      task_manager := TaskManager.new 3
      error := none }, [])

/-- systems.rs `handle_api_responses`, `ApiResponse::SeekCompleted` arm:
on a matching session, update cursor, clear the table, go Loading, then
compute the fresh window (`total_segments as u32`) and submit it. -/
def handleSeekCompleted (now : Nat) (session_id : String) (current_index : Nat)
    (st : EngineState) : EngineState × List Req :=
  match st.current_session with
  | some session =>
    if session.session_id = session_id then
      let tm1 := st.task_manager.clear
      let total := st.total_segments % u32Mod
      let indices := tm1.calculate_prefetch_range current_index total
      let tm2 :=
        if indices.isEmpty then tm1 else tm1.add_pending_tasks now session_id indices
      let reqs := if indices.isEmpty then [] else [Req.SubmitInfer session_id indices]
      ({ st with
          current_session := some { session with current_index := current_index }
          current_segment_index := current_index
          task_manager := tm2
          playback_state := .Loading
          waiting_for_audio := true
          error := none }, reqs)
    else ({ st with error := none }, [])
  | none => ({ st with error := none }, [])

/-- systems.rs `handle_api_responses`, `ApiResponse::VoiceChanged` arm:
on a matching session, update voice, clear the table, go Loading, then
recompute the window at the unchanged cursor and submit it. -/
def handleVoiceChanged (now : Nat) (session_id : String) (voice_id : Nat)
    (st : EngineState) : EngineState × List Req :=
  match st.current_session with
  | some session =>
    if session.session_id = session_id then
      let current := session.current_index
      let tm1 := st.task_manager.clear
      let total := st.total_segments % u32Mod
      let indices := tm1.calculate_prefetch_range current total
      let tm2 :=
        if indices.isEmpty then tm1 else tm1.add_pending_tasks now session_id indices
      let reqs := if indices.isEmpty then [] else [Req.SubmitInfer session_id indices]
      ({ st with
          current_session := some { session with voice_id := voice_id }
          task_manager := tm2
          playback_state := .Loading
          waiting_for_audio := true
          error := none }, reqs)
    else ({ st with error := none }, [])
  | none => ({ st with error := none }, [])

/-- systems.rs `handle_api_responses`, `ApiResponse::SessionClosed` arm:
drop the session, stop playback, clear the table. -/
def handleSessionClosed (st : EngineState) : EngineState × List Req :=
  ({ st with
      current_session := none
      playback_state := .Stopped
      task_manager := st.task_manager.clear
      error := none }, [])

/-- systems.rs `handle_api_responses`, `ApiResponse::InferSubmitted` arm,
table part: for each acknowledged task whose segment index exists in the
table, set that entry's `task_id` and `state` from the acknowledgement. -/
def applyInferAcks (acks : List TaskInfo) (tbl : Table) : Table :=
  acks.foldl
    (fun t info =>
      match t info.segment_index with
      | some seg =>
        insertTask info.segment_index
          { seg with task_id := info.task_id, state := TaskState.fromString info.state } t
      | none => t)
    tbl

/-- systems.rs `handle_api_responses`, `ApiResponse::InferSubmitted` arm:
apply the batch to the table; when some acknowledged task reports "ready"
for the current segment (`current_segment_index as u32`) and the engine is
waiting for audio or Loading, with a session active, request the audio. -/
def handleInferSubmitted (acks : List TaskInfo) (st : EngineState) :
    EngineState × List Req :=
  let current := st.current_segment_index % u32Mod
  let current_ready :=
    acks.any fun info => info.segment_index = current && info.state = "ready"
  let st1 :=
    { st with
        task_manager := { st.task_manager with tasks := applyInferAcks acks st.task_manager.tasks }
        error := none }
  if current_ready && (st.waiting_for_audio || st.playback_state = PlaybackState.Loading) then
    match st.current_session with
    | some session => (st1, [Req.LoadAudio session.novel_id current session.voice_id])
    | none => (st1, [])
  else (st1, [])

/-- systems.rs `handle_ws_responses`, `WsResponse::TaskStateChanged` arm:
run `update_task_state` against the active session (if any); then, for a
matching-session push reporting "ready" at the current segment
(`current_segment_index as u32`) while waiting for audio or Loading,
request the audio. -/
def handleWsTaskStateChanged (now : Nat) (event : WsEvent) (st : EngineState) :
    EngineState × List Req :=
  let st1 :=
    match st.current_session with
    | some s =>
      { st with task_manager := st.task_manager.update_task_state now s.session_id event }
    | none => st
  let reqs : List Req :=
    match event with
    | .TaskStateChanged session_id _ segment_index state _ _ =>
      match st.current_session with
      | some s =>
        if session_id = s.session_id then
          let current := st.current_segment_index % u32Mod
          if segment_index = current ∧ state = "ready"
              ∧ (st.waiting_for_audio ∨ st.playback_state = PlaybackState.Loading) then
            [Req.LoadAudio s.novel_id current s.voice_id]
          else []
        else []
      | none => []
    | .SessionClosed _ _ => []
  (st1, reqs)

/-- systems.rs `handle_ws_responses`, `WsResponse::SessionClosedByServer` arm:
on a matching session, drop session, stop playback, clear the table, record
the error message. -/
def handleSessionClosedByServer (session_id reason : String) (st : EngineState) :
    EngineState × List Req :=
  match st.current_session with
  | some session =>
    if session.session_id = session_id then
      ({ st with
          current_session := none
          playback_state := .Stopped
          task_manager := st.task_manager.clear
          error := some ("Session closed by server: " ++ reason) }, [])
    else (st, [])
  | none => (st, [])

/-- systems.rs `handle_audio_finished`: only acts while Playing with a
session; at the last segment stop, otherwise advance the cursor by one
(`(current + 1) as u32`), request audio if the next segment is Ready or go
Loading otherwise, then submit the newly-needed window. -/
def handleAudioFinished (now : Nat) (st : EngineState) : EngineState × List Req :=
  if st.playback_state ≠ PlaybackState.Playing then (st, [])
  else
    match st.current_session with
    | none => (st, [])
    | some session =>
      let total := st.total_segments
      let current := st.current_segment_index
      if current + 1 ≥ total then
        ({ st with playback_state := .Stopped }, [])
      else
        let next := (current + 1) % u32Mod
        let ready := st.task_manager.is_segment_ready next
        let indices := st.task_manager.calculate_prefetch_range next (total % u32Mod)
        let tm2 :=
          if indices.isEmpty then st.task_manager
          else st.task_manager.add_pending_tasks now session.session_id indices
        ({ st with
            current_segment_index := next
            current_session := some { session with current_index := next }
            playback_state := if ready then st.playback_state else .Loading
            waiting_for_audio := if ready then st.waiting_for_audio else true
            task_manager := tm2 },
          (if ready then [Req.LoadAudio session.novel_id next session.voice_id] else [])
            ++ (if indices.isEmpty then []
                else [Req.SubmitInfer session.session_id indices]))

/-- systems.rs `prefetch_tasks_system`, body run when the 1s timer fires:
while Playing or Loading with a session, recompute the window at the
session cursor and submit any newly-needed indices. -/
def prefetchTick (now : Nat) (st : EngineState) : EngineState × List Req :=
  if st.playback_state ≠ PlaybackState.Playing
      ∧ st.playback_state ≠ PlaybackState.Loading then (st, [])
  else
    match st.current_session with
    | none => (st, [])
    | some session =>
      let current := session.current_index
      let total := st.total_segments % u32Mod
      let indices := st.task_manager.calculate_prefetch_range current total
      if indices.isEmpty then (st, [])
      else
        ({ st with
            task_manager := st.task_manager.add_pending_tasks now session.session_id indices },
          [Req.SubmitInfer session.session_id indices])

/-- systems.rs `cleanup_stale_tasks_system`, body run when the 5s timer
fires: purge Pending entries older than 30 seconds. -/
def cleanupTick (now : Nat) (st : EngineState) : EngineState × List Req :=
  ({ st with task_manager := st.task_manager.cleanup_stale_pending now 30 }, [])

/-- systems.rs `handle_api_responses`, `ApiResponse::SegmentsLoaded` arm,
task-table part: record the real total; on an initial or jump load (the
pagination condition, abstracted as a boolean) with a session active,
compute the window at the session cursor (`real_total as u32`) and submit
it. -/
def handleSegmentsLoaded (now real_total : Nat) (is_initial_or_jump : Bool)
    (st : EngineState) : EngineState × List Req :=
  let st0 := { st with total_segments := real_total, error := none }
  if is_initial_or_jump then
    match st.current_session with
    | some session =>
      let indices :=
        st.task_manager.calculate_prefetch_range session.current_index (real_total % u32Mod)
      if indices.isEmpty then (st0, [])
      else
        ({ st0 with
            task_manager := st.task_manager.add_pending_tasks now session.session_id indices },
          [Req.SubmitInfer session.session_id indices])
    | none => (st0, [])
  else (st0, [])

/-- Engine-facing events that touch the session or the task table. -/
inductive Event where
  | playStarted (session_id : String) (novel_id voice_id current_index : Nat)
  | seekCompleted (now : Nat) (session_id : String) (current_index : Nat)
  | voiceChanged (now : Nat) (session_id : String) (voice_id : Nat)
  | sessionClosed
  | inferSubmitted (acks : List TaskInfo)
  | wsTaskStateChanged (now : Nat) (event : WsEvent)
  | sessionClosedByServer (session_id reason : String)
  | audioFinished (now : Nat)
  | prefetchTimer (now : Nat)
  | cleanupTimer (now : Nat)
  | segmentsLoaded (now real_total : Nat) (is_initial_or_jump : Bool)

/-- Dispatch one event to its handler, keeping the mutated state. -/
def step (st : EngineState) : Event → EngineState
  | .playStarted sid nid vid idx => (handlePlayStarted sid nid vid idx st).1
  | .seekCompleted now sid idx => (handleSeekCompleted now sid idx st).1
  | .voiceChanged now sid vid => (handleVoiceChanged now sid vid st).1
  | .sessionClosed => (handleSessionClosed st).1
  | .inferSubmitted acks => (handleInferSubmitted acks st).1
  | .wsTaskStateChanged now e => (handleWsTaskStateChanged now e st).1
  | .sessionClosedByServer sid reason => (handleSessionClosedByServer sid reason st).1
  | .audioFinished now => (handleAudioFinished now st).1
  | .prefetchTimer now => (prefetchTick now st).1
  | .cleanupTimer now => (cleanupTick now st).1
  | .segmentsLoaded now total flag => (handleSegmentsLoaded now total flag st).1

/-- Run a sequence of events. -/
def run (st : EngineState) (events : List Event) : EngineState :=
  events.foldl step st

/-- Session-scope invariant: while a session is active, every table entry
carries the active session's id. -/
def SessionScoped (st : EngineState) : Prop :=
  ∀ s, st.current_session = some s →
    ∀ i t, st.task_manager.tasks i = some t → t.session_id = s.session_id

/-- All entries of a table carry session id `sid`. -/
def TableScoped (sid : String) (tbl : Table) : Prop :=
  ∀ i t, tbl i = some t → t.session_id = sid

/-- The per-entry update an acknowledgement applies when it targets index `i`. -/
def ackStep (i : Nat) (s : SegmentTask) (info : TaskInfo) : SegmentTask :=
  if info.segment_index = i then
    { s with task_id := info.task_id, state := TaskState.fromString info.state }
  else s

/-- The two periodic operations that touch the table without clearing it:
a window recomputation + resubmission (`prefetch_tasks_system`, and the
resubmit part of seek / voice change / segment load), and a stale-entry
purge (`cleanup_stale_tasks_system`). -/
inductive TMOp where
  | resubmit (now : Nat) (session_id : String) (cursor total : Nat)
  | purge (now timeout : Nat)

/-- Apply one periodic operation to the task manager, as the systems do:
resubmit inserts Pending entries for the computed window, purge removes
stale Pending entries. -/
def TMOp.apply (tm : TaskManager) : TMOp → TaskManager
  | .resubmit now sid cursor total =>
    tm.add_pending_tasks now sid (tm.calculate_prefetch_range cursor total)
  | .purge now timeout => tm.cleanup_stale_pending now timeout

/-- Run a sequence of periodic operations. -/
def runTMOps (tm : TaskManager) (ops : List TMOp) : TaskManager :=
  ops.foldl TMOp.apply tm

/-- Pointwise description of `addPendingTasks`: present entries are kept
unchanged; absent indices get the fresh Pending entry exactly when listed. -/
theorem addPendingTasks_get (now : Nat) (sid : String) (indices : List Nat) :
    ∀ (tbl : Table) (i : Nat),
      addPendingTasks now sid indices tbl i =
        match tbl i with
        | some t => some t
        | none => if i ∈ indices then some (pendingTask now sid i) else none := by
  induction indices with
  | nil =>
    intro tbl i
    cases h : tbl i <;> simp [addPendingTasks, h]
  | cons a rest ih =>
    intro tbl i
    have hstep : addPendingTasks now sid (a :: rest) tbl =
        addPendingTasks now sid rest
          (if (tbl a).isSome then tbl else insertTask a (pendingTask now sid a) tbl) := rfl
    rw [hstep, ih]
    by_cases hia : i = a
    · subst hia
      cases h : tbl i with
      | some t => simp [h]
      | none => simp [h, insertTask]
    · cases h : tbl i with
      | some t =>
        cases ha : tbl a with
        | some t2 => simp [ha, h]
        | none => simp [ha, insertTask, hia, h]
      | none =>
        cases ha : tbl a with
        | some t2 => simp [ha, h, hia]
        | none => simp [ha, insertTask, hia, h]

/-- Entries already present survive `addPendingTasks` unchanged. -/
theorem addPendingTasks_existing {tbl : Table} {i : Nat} {t : SegmentTask}
    (now : Nat) (sid : String) (indices : List Nat) (h : tbl i = some t) :
    addPendingTasks now sid indices tbl i = some t := by
  rw [addPendingTasks_get]
  simp [h]

/-- Lemma: `addPendingTasks` on the empty table builds exactly the listed entries. -/
theorem addPendingTasks_empty (now : Nat) (sid : String) (indices : List Nat) (i : Nat) :
    addPendingTasks now sid indices emptyTable i =
      if i ∈ indices then some (pendingTask now sid i) else none := by
  rw [addPendingTasks_get]
  simp [emptyTable]

/-- Membership in the computed prefetch window. -/
theorem mem_calculate_prefetch_range {tm : TaskManager} {cursor total i : Nat} :
    i ∈ tm.calculate_prefetch_range cursor total ↔
      cursor ≤ i ∧ i < min ((cursor + tm.prefetch_ahead + 1) % u32Mod) total
        ∧ tm.tasks i = none := by
  unfold TaskManager.calculate_prefetch_range
  simp only [List.mem_filter, List.mem_range'_1, Option.isNone_iff_eq_none]
  constructor
  · rintro ⟨⟨h1, h2⟩, h3⟩
    exact ⟨h1, by omega, h3⟩
  · rintro ⟨h1, h2, h3⟩
    exact ⟨⟨h1, by omega⟩, h3⟩

/-- C1: `calculate_prefetch_range` returns exactly
`{ i : cursor ≤ i ≤ min(cursor+ahead, total-1), i ∉ table }` whenever the
u32 sum `cursor + ahead + 1` does not overflow; for all inputs (overflow
included) it never yields an index below the cursor, at or past the total,
or already present, and `total = 0` yields the empty list.  (The original
claim extends the exact-set equality to overflowing u32 inputs; that part
is refuted by `C1_counterexample`.) -/
theorem C1_calculate_prefetch_range_window (tm : TaskManager) (cursor total : Nat) :
    (cursor + tm.prefetch_ahead + 1 < u32Mod →
      ∀ i, i ∈ tm.calculate_prefetch_range cursor total ↔
        (cursor ≤ i ∧ i ≤ cursor + tm.prefetch_ahead ∧ i < total ∧ tm.tasks i = none)) ∧
    (∀ i, i ∈ tm.calculate_prefetch_range cursor total →
      cursor ≤ i ∧ i < total ∧ tm.tasks i = none) ∧
    (total = 0 → tm.calculate_prefetch_range cursor total = []) := by
  refine ⟨?_, ?_, ?_⟩
  · intro hno i
    rw [mem_calculate_prefetch_range, Nat.mod_eq_of_lt hno]
    constructor
    · rintro ⟨h1, h2, h3⟩
      exact ⟨h1, by omega, by omega, h3⟩
    · rintro ⟨h1, h2, h3, h4⟩
      exact ⟨h1, by omega, h4⟩
  · intro i hi
    rw [mem_calculate_prefetch_range] at hi
    obtain ⟨h1, h2, h3⟩ := hi
    exact ⟨h1, by omega, h3⟩
  · intro h0
    subst h0
    refine List.eq_nil_iff_forall_not_mem.mpr fun i hi => ?_
    rw [mem_calculate_prefetch_range] at hi
    obtain ⟨h1, h2, h3⟩ := hi
    omega

/-- C1 witness: at `ahead = 3`, `cursor = 0`, `total = 10`, the empty table,
the no-overflow hypothesis holds and index 2 is in the window iff it is in
the ideal set. -/
theorem C1_calculate_prefetch_range_window_witness :
    2 ∈ (TaskManager.new 3).calculate_prefetch_range 0 10 ↔
      (0 ≤ 2 ∧ 2 ≤ 0 + (TaskManager.new 3).prefetch_ahead ∧ 2 < 10
        ∧ (TaskManager.new 3).tasks 2 = none) :=
  (C1_calculate_prefetch_range_window (TaskManager.new 3) 0 10).1 (by decide) 2

/-- C1 counterexample: with `ahead = 3`, `cursor = 4294967294`,
`total = 4294967295` and the empty table, the u32 sum `cursor + ahead + 1`
wraps, so the code returns the empty list although the claimed set
`{ i : cursor ≤ i ≤ min(cursor+ahead, total-1), i ∉ table }` contains the
cursor itself. -/
theorem C1_calculate_prefetch_range_overflow_counterexample :
    (4294967294 ≤ 4294967294
      ∧ 4294967294 ≤ 4294967294 + (TaskManager.new 3).prefetch_ahead
      ∧ 4294967294 < 4294967295
      ∧ (TaskManager.new 3).tasks 4294967294 = none) ∧
    4294967294 ∉ (TaskManager.new 3).calculate_prefetch_range 4294967294 4294967295 := by
  exact ⟨⟨by decide, by decide, by decide, rfl⟩, by decide⟩

/-- C3: `add_pending_tasks` never overwrites (present entries keep their
task id, state, session id and timestamp), inserts fresh Pending entries
stamped `now` exactly at the listed absent indices, and a second call with
the same indices (at a later time `now2`) leaves the table unchanged. -/
theorem C3_add_pending_tasks_idempotent (tm : TaskManager) (now now2 : Nat)
    (sid : String) (indices : List Nat) :
    (∀ i t, tm.tasks i = some t → (tm.add_pending_tasks now sid indices).tasks i = some t) ∧
    (∀ i, tm.tasks i = none →
      (tm.add_pending_tasks now sid indices).tasks i =
        if i ∈ indices then some (pendingTask now sid i) else none) ∧
    ((tm.add_pending_tasks now sid indices).add_pending_tasks now2 sid indices).tasks =
      (tm.add_pending_tasks now sid indices).tasks := by
  refine ⟨?_, ?_, ?_⟩
  · intro i t h
    exact addPendingTasks_existing now sid indices h
  · intro i h
    show addPendingTasks now sid indices tm.tasks i = _
    rw [addPendingTasks_get, h]
  · funext i
    show addPendingTasks now2 sid indices (addPendingTasks now sid indices tm.tasks) i =
      addPendingTasks now sid indices tm.tasks i
    rw [addPendingTasks_get, addPendingTasks_get]
    cases h : tm.tasks i with
    | some t => simp
    | none =>
      by_cases hi : i ∈ indices <;> simp [hi]

/-- C3 witness: a table holding an old entry at index 0; adding `[0, 1]`
keeps the old entry, creates index 1 Pending, and a repeated call is a
no-op. -/
theorem C3_add_pending_tasks_idempotent_witness :
    ((TaskManager.mk (insertTask 0 (pendingTask 5 "s1" 0) emptyTable) 3).add_pending_tasks
        7 "s1" [0, 1]).tasks 0 = some (pendingTask 5 "s1" 0) :=
  (C3_add_pending_tasks_idempotent
      (TaskManager.mk (insertTask 0 (pendingTask 5 "s1" 0) emptyTable) 3) 7 9 "s1" [0, 1]).1
    0 (pendingTask 5 "s1" 0) (by decide)

/-- C7: `cleanup_stale_pending` removes an entry iff it is Pending and its
age exceeds the timeout; an entry in any other state (or young enough) is
kept unchanged. -/
theorem C7_cleanup_stale_pending_iff (tm : TaskManager) (now timeout i : Nat)
    (t : SegmentTask) (h : tm.tasks i = some t) :
    ((tm.cleanup_stale_pending now timeout).tasks i = none ↔
      (t.state = TaskState.Pending ∧ now - t.created_at > timeout)) ∧
    (¬ (t.state = TaskState.Pending ∧ now - t.created_at > timeout) →
      (tm.cleanup_stale_pending now timeout).tasks i = some t) := by
  have hc : (tm.cleanup_stale_pending now timeout).tasks i =
      if t.state = TaskState.Pending ∧ now - t.created_at > timeout then none
      else some t := by
    show cleanupStalePending now timeout tm.tasks i = _
    simp only [cleanupStalePending, h]
  rw [hc]
  constructor
  · split
    · simp_all
    · simp_all
  · intro hn
    rw [if_neg hn]

/-- C7 witness: a Ready entry 1000 seconds old survives a 30-second
timeout purge. -/
theorem C7_cleanup_stale_pending_iff_witness :
    ((TaskManager.mk
        (insertTask 4 { pendingTask 0 "s1" 4 with state := TaskState.Ready } emptyTable)
        3).cleanup_stale_pending 1000 30).tasks 4 =
      some { pendingTask 0 "s1" 4 with state := TaskState.Ready } :=
  (C7_cleanup_stale_pending_iff
      (TaskManager.mk
        (insertTask 4 { pendingTask 0 "s1" 4 with state := TaskState.Ready } emptyTable) 3)
      1000 30 4 { pendingTask 0 "s1" 4 with state := TaskState.Ready } (by decide)).2
    (by decide)

/-- Lemma: `updateTaskState` when the event's session id equals the current one:
the session check falls through to the table update. -/
theorem updateTaskState_same_session (now : Nat) (csid tid : String) (idx : Nat)
    (stateStr : String) (dur : Option Nat) (err : Option String) (tbl : Table) :
    updateTaskState now csid (WsEvent.TaskStateChanged csid tid idx stateStr dur err) tbl =
      match tbl idx with
      | some task =>
        if task.session_id ≠ csid then tbl
        else
          insertTask idx
            { task with
              task_id := tid
              state := TaskState.fromString stateStr
              duration_ms := dur
              error := err
              created_at := now } tbl
      | none =>
        insertTask idx
          { session_id := csid
            task_id := tid
            segment_index := idx
            state := TaskState.fromString stateStr
            duration_ms := dur
            error := err
            created_at := now } tbl := by
  simp [updateTaskState]

/-- C2: a push notification whose session id differs from the active
session's id leaves the task table unchanged (no entry added, removed or
modified) when the WebSocket handler processes it. -/
theorem C2_push_other_session_frame (now : Nat) (st : EngineState) (s : CurrentSession)
    (esid tid : String) (segIdx : Nat) (stateStr : String) (dur : Option Nat)
    (err : Option String) (hs : st.current_session = some s) (hne : esid ≠ s.session_id) :
    (handleWsTaskStateChanged now
        (WsEvent.TaskStateChanged esid tid segIdx stateStr dur err) st).1.task_manager.tasks
      = st.task_manager.tasks := by
  simp [handleWsTaskStateChanged, hs, TaskManager.update_task_state, updateTaskState, hne]

/-- C2 witness: a push for session "s2" while "s1" is active, with an entry
in the table, leaves the table as it was. -/
theorem C2_push_other_session_frame_witness :
    (handleWsTaskStateChanged 10
        (WsEvent.TaskStateChanged "s2" "t9" 0 "ready" none none)
        { current_session := some ⟨"s1", 1, 2, 0⟩
          task_manager := TaskManager.mk (insertTask 0 (pendingTask 5 "s1" 0) emptyTable) 3
          playback_state := .Loading
          waiting_for_audio := true
          current_segment_index := 0
          total_segments := 10
          error := none }).1.task_manager.tasks
      = (TaskManager.mk (insertTask 0 (pendingTask 5 "s1" 0) emptyTable) 3).tasks :=
  C2_push_other_session_frame 10
    { current_session := some ⟨"s1", 1, 2, 0⟩
      task_manager := TaskManager.mk (insertTask 0 (pendingTask 5 "s1" 0) emptyTable) 3
      playback_state := .Loading
      waiting_for_audio := true
      current_segment_index := 0
      total_segments := 10
      error := none }
    ⟨"s1", 1, 2, 0⟩ "s2" "t9" 0 "ready" none none rfl (by decide)

/-- C5: a push notification for the active session updates the existing
entry at the notified index (task id, state, duration, error set from the
notification, provided the stored session id matches), leaves every other
index untouched, and inserts a fresh entry in the notified state when the
index is absent. -/
theorem C5_push_same_session_update (tm : TaskManager) (now : Nat) (csid tid : String)
    (idx : Nat) (stateStr : String) (dur : Option Nat) (err : Option String) :
    (∀ seg, tm.tasks idx = some seg → seg.session_id = csid →
      (tm.update_task_state now csid
          (WsEvent.TaskStateChanged csid tid idx stateStr dur err)).tasks idx =
        some { seg with
                task_id := tid
                state := TaskState.fromString stateStr
                duration_ms := dur
                error := err
                created_at := now }) ∧
    (∀ j, j ≠ idx →
      (tm.update_task_state now csid
          (WsEvent.TaskStateChanged csid tid idx stateStr dur err)).tasks j = tm.tasks j) ∧
    (tm.tasks idx = none →
      (tm.update_task_state now csid
          (WsEvent.TaskStateChanged csid tid idx stateStr dur err)).tasks idx =
        some { session_id := csid
               task_id := tid
               segment_index := idx
               state := TaskState.fromString stateStr
               duration_ms := dur
               error := err
               created_at := now }) := by
  refine ⟨?_, ?_, ?_⟩
  · intro seg hseg hsid
    show updateTaskState now csid
      (WsEvent.TaskStateChanged csid tid idx stateStr dur err) tm.tasks idx = _
    rw [updateTaskState_same_session, hseg]
    simp [hsid, insertTask]
  · intro j hj
    show updateTaskState now csid
      (WsEvent.TaskStateChanged csid tid idx stateStr dur err) tm.tasks j = tm.tasks j
    rw [updateTaskState_same_session]
    cases h : tm.tasks idx with
    | none => simp [insertTask, hj]
    | some task =>
      by_cases hts : task.session_id = csid
      · simp [hts, insertTask, hj]
      · simp [hts]
  · intro h
    show updateTaskState now csid
      (WsEvent.TaskStateChanged csid tid idx stateStr dur err) tm.tasks idx = _
    rw [updateTaskState_same_session, h]
    simp [insertTask]

/-- C5 witness: with Pending entries at 0..3 for session "s1", a push
reporting index 2 ready for "s1" flips exactly index 2 to Ready and leaves
index 1 unchanged. -/
theorem C5_push_same_session_update_witness :
    ((TaskManager.mk (addPendingTasks 5 "s1" [0, 1, 2, 3] emptyTable) 3).update_task_state
        9 "s1" (WsEvent.TaskStateChanged "s1" "t2" 2 "ready" (some 1200) none)).tasks 2 =
      some { pendingTask 5 "s1" 2 with
              task_id := "t2"
              state := TaskState.fromString "ready"
              duration_ms := some 1200
              error := none
              created_at := 9 } :=
  (C5_push_same_session_update
      (TaskManager.mk (addPendingTasks 5 "s1" [0, 1, 2, 3] emptyTable) 3)
      9 "s1" "t2" 2 "ready" (some 1200) none).1
    (pendingTask 5 "s1" 2) (by decide) (by decide)

/-- Unfolding one acknowledgement of `applyInferAcks`. -/
theorem applyInferAcks_cons (a : TaskInfo) (rest : List TaskInfo) (tbl : Table) :
    applyInferAcks (a :: rest) tbl =
      applyInferAcks rest
        (match tbl a.segment_index with
         | some seg =>
           insertTask a.segment_index
             { seg with task_id := a.task_id, state := TaskState.fromString a.state } tbl
         | none => tbl) := rfl

/-- Pointwise description of `applyInferAcks`: presence is preserved, and a
present entry accumulates the update of every acknowledgement listing its
index. -/
theorem applyInferAcks_get (acks : List TaskInfo) :
    ∀ (tbl : Table) (i : Nat),
      applyInferAcks acks tbl i = (tbl i).map fun seg => acks.foldl (ackStep i) seg := by
  induction acks with
  | nil => intro tbl i; cases h : tbl i <;> simp [applyInferAcks, h]
  | cons a rest ih =>
    intro tbl i
    rw [applyInferAcks_cons, ih]
    have hone : (match tbl a.segment_index with
        | some seg =>
          insertTask a.segment_index
            { seg with task_id := a.task_id, state := TaskState.fromString a.state } tbl
        | none => tbl) i = (tbl i).map fun s => ackStep i s a := by
      by_cases hai : a.segment_index = i
      · subst hai
        cases h : tbl a.segment_index with
        | none => simp [h]
        | some seg => simp [h, insertTask, ackStep]
      · have hai2 : i ≠ a.segment_index := fun hc => hai hc.symm
        cases h : tbl a.segment_index with
        | none => cases h2 : tbl i <;> simp [h2, ackStep, hai]
        | some seg => cases h2 : tbl i <;> simp [insertTask, hai2, h2, ackStep, hai]
    rw [hone]
    cases h2 : tbl i with
    | none => rfl
    | some v => simp [List.foldl_cons]

/-- A fold of acknowledgement steps none of which target index `i` is the
identity. -/
theorem foldl_ackStep_no_match {i : Nat} (seg : SegmentTask) :
    ∀ (acks : List TaskInfo), (∀ info ∈ acks, info.segment_index ≠ i) →
      acks.foldl (ackStep i) seg = seg := by
  intro acks
  induction acks generalizing seg with
  | nil => intro _; rfl
  | cons a rest ih =>
    intro h
    have ha : a.segment_index ≠ i := h a (by simp)
    have hrest : ∀ info ∈ rest, info.segment_index ≠ i := fun info hm => h info (by simp [hm])
    have hstep : ackStep i seg a = seg := by simp [ackStep, ha]
    rw [List.foldl_cons, hstep]
    exact ih seg hrest

/-- Under distinct segment indices, the fold of acknowledgement steps at
index `i` reduces to the single matching acknowledgement's update. -/
theorem foldl_ackStep_single {i : Nat} (seg : SegmentTask) :
    ∀ (acks : List TaskInfo), (acks.map (·.segment_index)).Nodup →
      ∀ info ∈ acks, info.segment_index = i →
        acks.foldl (ackStep i) seg =
          { seg with task_id := info.task_id, state := TaskState.fromString info.state } := by
  intro acks
  induction acks generalizing seg with
  | nil => intro _ info hm; exact absurd hm (List.not_mem_nil info)
  | cons a rest ih =>
    intro hnd info hm hi
    have hnd2 : (∀ x ∈ rest, ¬x.segment_index = a.segment_index)
        ∧ (rest.map (·.segment_index)).Nodup := by simpa using hnd
    rcases List.mem_cons.mp hm with hma | hmr
    · subst hma
      have hstep : ackStep i seg info =
          { seg with task_id := info.task_id, state := TaskState.fromString info.state } := by
        simp [ackStep, hi]
      rw [List.foldl_cons, hstep]
      exact foldl_ackStep_no_match _ rest
        fun j hj hcon => hnd2.1 j hj (hcon.trans hi.symm)
    · have ha : a.segment_index ≠ i :=
        fun hcon => hnd2.1 info hmr (hi.trans hcon.symm)
      have hstep : ackStep i seg a = seg := by simp [ackStep, ha]
      rw [List.foldl_cons, hstep]
      exact ih seg hnd2.2 info hmr hi

/-- The state component of `handleInferSubmitted`. -/
theorem handleInferSubmitted_fst (acks : List TaskInfo) (st : EngineState) :
    (handleInferSubmitted acks st).1 =
      { st with
        task_manager :=
          { st.task_manager with tasks := applyInferAcks acks st.task_manager.tasks }
        error := none } := by
  simp only [handleInferSubmitted]
  split
  · split <;> rfl
  · rfl

/-- C9: processing an acknowledgement batch (with one acknowledgement per
segment index) updates the `task_id` and `state` of every acknowledged
entry present in the table while leaving its other fields and every
unacknowledged or absent index untouched; and when some acknowledgement
reports "ready" for the current segment while the engine is waiting for
audio or Loading with a session active, the audio fetch for that segment is
emitted. -/
theorem C9_infer_submitted (acks : List TaskInfo) (st : EngineState)
    (hnd : (acks.map (·.segment_index)).Nodup) :
    (∀ info ∈ acks, ∀ seg, st.task_manager.tasks info.segment_index = some seg →
      (handleInferSubmitted acks st).1.task_manager.tasks info.segment_index =
        some { seg with
                task_id := info.task_id
                state := TaskState.fromString info.state }) ∧
    (∀ i, st.task_manager.tasks i = none →
      (handleInferSubmitted acks st).1.task_manager.tasks i = none) ∧
    (∀ i, (∀ info ∈ acks, info.segment_index ≠ i) →
      (handleInferSubmitted acks st).1.task_manager.tasks i = st.task_manager.tasks i) ∧
    (∀ info ∈ acks, ∀ session, st.current_session = some session →
      info.segment_index = st.current_segment_index % u32Mod → info.state = "ready" →
      (st.waiting_for_audio = true ∨ st.playback_state = PlaybackState.Loading) →
      (handleInferSubmitted acks st).2 =
        [Req.LoadAudio session.novel_id (st.current_segment_index % u32Mod)
          session.voice_id]) := by
  refine ⟨?_, ?_, ?_, ?_⟩
  · intro info hm seg hseg
    rw [handleInferSubmitted_fst]
    show applyInferAcks acks st.task_manager.tasks info.segment_index = _
    rw [applyInferAcks_get, hseg, Option.map_some',
      foldl_ackStep_single seg acks hnd info hm rfl]
  · intro i hi
    rw [handleInferSubmitted_fst]
    show applyInferAcks acks st.task_manager.tasks i = none
    rw [applyInferAcks_get, hi]
    rfl
  · intro i hi
    rw [handleInferSubmitted_fst]
    show applyInferAcks acks st.task_manager.tasks i = st.task_manager.tasks i
    rw [applyInferAcks_get]
    cases h : st.task_manager.tasks i with
    | none => rfl
    | some seg => simp [foldl_ackStep_no_match seg acks hi]
  · intro info hm session hs hidx hready hwait
    have hcur : (acks.any fun info =>
        info.segment_index = st.current_segment_index % u32Mod
          && info.state = "ready") = true := by
      rw [List.any_eq_true]
      exact ⟨info, hm, by simp [hidx, hready]⟩
    have hw : (st.waiting_for_audio
        || decide (st.playback_state = PlaybackState.Loading)) = true := by
      rcases hwait with h | h <;> simp [h]
    simp only [handleInferSubmitted, hcur, hw, Bool.and_self, Bool.true_and, if_true, hs]

/-- C9 witness: Pending entries at 0..3, a batch acknowledging index 0 as a
"ready" cache hit while Loading at cursor 0 updates entry 0's task id and
state. -/
theorem C9_infer_submitted_witness :
    (handleInferSubmitted [TaskInfo.mk "t0" 0 "ready"]
        { current_session := some ⟨"s1", 1, 2, 0⟩
          task_manager := TaskManager.mk (addPendingTasks 5 "s1" [0, 1, 2, 3] emptyTable) 3
          playback_state := .Loading
          waiting_for_audio := true
          current_segment_index := 0
          total_segments := 10
          error := none }).1.task_manager.tasks (TaskInfo.mk "t0" 0 "ready").segment_index =
      some { pendingTask 5 "s1" 0 with
              task_id := "t0"
              state := TaskState.fromString "ready" } :=
  (C9_infer_submitted [TaskInfo.mk "t0" 0 "ready"]
      { current_session := some ⟨"s1", 1, 2, 0⟩
        task_manager := TaskManager.mk (addPendingTasks 5 "s1" [0, 1, 2, 3] emptyTable) 3
        playback_state := .Loading
        waiting_for_audio := true
        current_segment_index := 0
        total_segments := 10
        error := none }
      (by decide)).1
    (TaskInfo.mk "t0" 0 "ready") (by decide) (pendingTask 5 "s1" 0) (by decide)

/-- C4: a seek acknowledgement matching the active session sets the cursor
to the acknowledged index, moves playback to Loading, and leaves the table
holding exactly the Pending entries of the window computed at the new
cursor on the cleared table — no pre-seek entry survives. -/
theorem C4_seek_completed (now : Nat) (sid : String) (idx : Nat) (st : EngineState)
    (s : CurrentSession) (hs : st.current_session = some s) (hm : s.session_id = sid) :
    (handleSeekCompleted now sid idx st).1.current_session =
        some { s with current_index := idx } ∧
    (handleSeekCompleted now sid idx st).1.current_segment_index = idx ∧
    (handleSeekCompleted now sid idx st).1.playback_state = PlaybackState.Loading ∧
    (∀ i, (handleSeekCompleted now sid idx st).1.task_manager.tasks i =
      if i ∈ (st.task_manager.clear).calculate_prefetch_range idx (st.total_segments % u32Mod)
      then some (pendingTask now sid i) else none) := by
  refine ⟨?_, ?_, ?_, ?_⟩
  · simp [handleSeekCompleted, hs, hm]
  · simp [handleSeekCompleted, hs, hm]
  · simp [handleSeekCompleted, hs, hm]
  · intro i
    simp only [handleSeekCompleted, hs, hm, if_pos]
    split
    · next he =>
      have hnil : (st.task_manager.clear).calculate_prefetch_range idx
          (st.total_segments % u32Mod) = [] := List.isEmpty_iff.mp he
      rw [hnil]
      simp [TaskManager.clear, emptyTable]
    · next he =>
      show addPendingTasks now sid
          ((st.task_manager.clear).calculate_prefetch_range idx (st.total_segments % u32Mod))
          emptyTable i = _
      rw [addPendingTasks_empty]

/-- C4 witness: while "s1" is active with four Pending entries, seeking to
index 5 (total 10) leaves index 1's old entry gone and index 5 freshly
Pending in the new window. -/
theorem C4_seek_completed_witness :
    (handleSeekCompleted 9 "s1" 5
        { current_session := some ⟨"s1", 1, 2, 0⟩
          task_manager := TaskManager.mk (addPendingTasks 5 "s1" [0, 1, 2, 3] emptyTable) 3
          playback_state := .Playing
          waiting_for_audio := false
          current_segment_index := 0
          total_segments := 10
          error := none }).1.task_manager.tasks 1 =
      (if 1 ∈ ((TaskManager.mk (addPendingTasks 5 "s1" [0, 1, 2, 3] emptyTable) 3).clear).calculate_prefetch_range
          5 (10 % u32Mod)
        then some (pendingTask 9 "s1" 1) else none) :=
  (C4_seek_completed 9 "s1" 5
      { current_session := some ⟨"s1", 1, 2, 0⟩
        task_manager := TaskManager.mk (addPendingTasks 5 "s1" [0, 1, 2, 3] emptyTable) 3
        playback_state := .Playing
        waiting_for_audio := false
        current_segment_index := 0
        total_segments := 10
        error := none }
      ⟨"s1", 1, 2, 0⟩ rfl rfl).2.2.2 1

/-- C6: a finished signal in any state other than Playing changes nothing;
while Playing at the last segment it only stops playback (cursor, table and
requests untouched); otherwise the cursor advances by exactly one, the
newly-needed window indices are inserted Pending and submitted, playback
becomes Loading when the next segment is not Ready, and an immediate audio
fetch is emitted when it is Ready. -/
theorem C6_audio_finished (now : Nat) (st : EngineState) (s : CurrentSession)
    (hs : st.current_session = some s) (h32 : st.current_segment_index + 1 < u32Mod) :
    (st.playback_state ≠ PlaybackState.Playing → handleAudioFinished now st = (st, [])) ∧
    (st.playback_state = PlaybackState.Playing →
      st.current_segment_index + 1 ≥ st.total_segments →
      handleAudioFinished now st = ({ st with playback_state := .Stopped }, [])) ∧
    (st.playback_state = PlaybackState.Playing →
      st.current_segment_index + 1 < st.total_segments →
      ((handleAudioFinished now st).1.current_segment_index
          = st.current_segment_index + 1 ∧
       (handleAudioFinished now st).1.current_session =
         some { s with current_index := st.current_segment_index + 1 } ∧
       (∀ i, (handleAudioFinished now st).1.task_manager.tasks i =
         match st.task_manager.tasks i with
         | some t => some t
         | none =>
           if i ∈ st.task_manager.calculate_prefetch_range (st.current_segment_index + 1)
               (st.total_segments % u32Mod)
           then some (pendingTask now s.session_id i) else none) ∧
       (st.task_manager.is_segment_ready (st.current_segment_index + 1) = false →
         (handleAudioFinished now st).1.playback_state = PlaybackState.Loading ∧
         (handleAudioFinished now st).2 =
           (if (st.task_manager.calculate_prefetch_range (st.current_segment_index + 1)
               (st.total_segments % u32Mod)).isEmpty then []
            else [Req.SubmitInfer s.session_id
              (st.task_manager.calculate_prefetch_range (st.current_segment_index + 1)
                (st.total_segments % u32Mod))])) ∧
       (st.task_manager.is_segment_ready (st.current_segment_index + 1) = true →
         Req.LoadAudio s.novel_id (st.current_segment_index + 1) s.voice_id ∈
           (handleAudioFinished now st).2))) := by
  have hnext : (st.current_segment_index + 1) % u32Mod = st.current_segment_index + 1 :=
    Nat.mod_eq_of_lt h32
  refine ⟨?_, ?_, ?_⟩
  · intro hp
    simp [handleAudioFinished, hp]
  · intro hp hge
    simp [handleAudioFinished, hp, hs, hge]
  · intro hp hlt
    have hnge : ¬ (st.current_segment_index + 1 ≥ st.total_segments) := by omega
    refine ⟨?_, ?_, ?_, ?_, ?_⟩
    · simp [handleAudioFinished, hp, hs, hnge, hnext]
    · simp [handleAudioFinished, hp, hs, hnge, hnext]
    · intro i
      simp only [handleAudioFinished, hp, hs, hnge]
      simp only [hnext, ne_eq, not_true_eq_false, if_neg, ite_false]
      split
      · next he =>
        have hnil : st.task_manager.calculate_prefetch_range (st.current_segment_index + 1)
            (st.total_segments % u32Mod) = [] := List.isEmpty_iff.mp he
        rw [hnil]
        cases h2 : st.task_manager.tasks i <;> simp [h2]
      · next he =>
        show addPendingTasks now s.session_id
            (st.task_manager.calculate_prefetch_range (st.current_segment_index + 1)
              (st.total_segments % u32Mod)) st.task_manager.tasks i = _
        rw [addPendingTasks_get]
    · intro hr
      constructor
      · simp [handleAudioFinished, hp, hs, hnge, hnext, hr]
      · simp [handleAudioFinished, hp, hs, hnge, hnext, hr]
    · intro hr
      simp [handleAudioFinished, hp, hs, hnge, hnext, hr]

/-- C6 witness: Scenario D — Playing at cursor 9 of total 10, the finished
signal stops playback with no other change and no request. -/
theorem C6_audio_finished_witness :
    handleAudioFinished 50
        { current_session := some ⟨"s1", 1, 2, 9⟩
          task_manager := TaskManager.mk (addPendingTasks 5 "s1" [9] emptyTable) 3
          playback_state := .Playing
          waiting_for_audio := false
          current_segment_index := 9
          total_segments := 10
          error := none } =
      ({ current_session := some ⟨"s1", 1, 2, 9⟩
         task_manager := TaskManager.mk (addPendingTasks 5 "s1" [9] emptyTable) 3
         playback_state := .Stopped
         waiting_for_audio := false
         current_segment_index := 9
         total_segments := 10
         error := none }, []) :=
  (C6_audio_finished 50
      { current_session := some ⟨"s1", 1, 2, 9⟩
        task_manager := TaskManager.mk (addPendingTasks 5 "s1" [9] emptyTable) 3
        playback_state := .Playing
        waiting_for_audio := false
        current_segment_index := 9
        total_segments := 10
        error := none }
      ⟨"s1", 1, 2, 9⟩ rfl (by decide)).2.1 rfl (by decide)

/-- One periodic operation leaves a Failed entry exactly in place. -/
theorem TMOp.apply_keeps_failed {tm : TaskManager} {idx : Nat} {t : SegmentTask}
    (h : tm.tasks idx = some t) (hf : t.state = TaskState.Failed) (op : TMOp) :
    (TMOp.apply tm op).tasks idx = some t := by
  cases op with
  | resubmit now sid cursor total => exact addPendingTasks_existing now sid _ h
  | purge now timeout =>
    show cleanupStalePending now timeout tm.tasks idx = some t
    simp only [cleanupStalePending, h]
    rw [if_neg]
    rintro ⟨h1, _⟩
    rw [hf] at h1
    exact TaskState.noConfusion h1

/-- A Failed entry survives any sequence of periodic operations unchanged. -/
theorem runTMOps_keeps_failed {idx : Nat} {t : SegmentTask}
    (hf : t.state = TaskState.Failed) :
    ∀ (ops : List TMOp) (tm : TaskManager), tm.tasks idx = some t →
      (runTMOps tm ops).tasks idx = some t := by
  intro ops
  induction ops with
  | nil => intro tm h; exact h
  | cons op rest ih =>
    intro tm h
    exact ih (TMOp.apply tm op) (TMOp.apply_keeps_failed h hf op)

/-- An index present in the table is never in the computed prefetch window. -/
theorem not_mem_prefetch_of_present {tm : TaskManager} {idx : Nat} {t : SegmentTask}
    (h : tm.tasks idx = some t) (cursor total : Nat) :
    idx ∉ tm.calculate_prefetch_range cursor total := by
  intro hmem
  rw [mem_calculate_prefetch_range] at hmem
  rw [h] at hmem
  exact Option.noConfusion hmem.2.2

/-- C8: a Failed entry is never removed nor altered by any sequence of
window recomputations and stale purges, and at every resubmission step of
the sequence its index is excluded from the submitted window — the entry
can only leave the table through a full clear. -/
theorem C8_failed_never_retried (tm : TaskManager) (ops : List TMOp) (idx : Nat)
    (t : SegmentTask) (h : tm.tasks idx = some t) (hf : t.state = TaskState.Failed) :
    (runTMOps tm ops).tasks idx = some t ∧
    (∀ (l1 l2 : List TMOp) (now : Nat) (sid : String) (cursor total : Nat),
      ops = l1 ++ TMOp.resubmit now sid cursor total :: l2 →
      idx ∉ (runTMOps tm l1).calculate_prefetch_range cursor total) := by
  refine ⟨runTMOps_keeps_failed hf ops tm h, ?_⟩
  intro l1 l2 now sid cursor total hops
  exact not_mem_prefetch_of_present (runTMOps_keeps_failed hf l1 tm h) cursor total

/-- C8 witness: a Failed entry at index 1 survives a resubmit and a purge,
and the resubmit window (recomputed after nothing) skips index 1. -/
theorem C8_failed_never_retried_witness :
    (runTMOps
        (TaskManager.mk
          (insertTask 1 { pendingTask 0 "s1" 1 with state := TaskState.Failed } emptyTable) 3)
        [TMOp.resubmit 40 "s1" 0 10, TMOp.purge 100 30]).tasks 1 =
      some { pendingTask 0 "s1" 1 with state := TaskState.Failed } :=
  (C8_failed_never_retried
      (TaskManager.mk
        (insertTask 1 { pendingTask 0 "s1" 1 with state := TaskState.Failed } emptyTable) 3)
      [TMOp.resubmit 40 "s1" 0 10, TMOp.purge 100 30] 1
      { pendingTask 0 "s1" 1 with state := TaskState.Failed }
      (by decide) rfl).1

/-- Pointwise reading of `insertTask`. -/
theorem insertTask_get (idx : Nat) (u : SegmentTask) (tbl : Table) (i : Nat) :
    insertTask idx u tbl i = if i = idx then some u else tbl i := rfl

/-- Lemma: `updateTaskState` discards an event from another session. -/
theorem updateTaskState_other_session {csid esid : String} (hne : esid ≠ csid)
    (now : Nat) (tid : String) (idx : Nat) (stateStr : String) (dur : Option Nat)
    (err : Option String) (tbl : Table) :
    updateTaskState now csid (WsEvent.TaskStateChanged esid tid idx stateStr dur err) tbl
      = tbl := by
  simp [updateTaskState, hne]

/-- The empty table is scoped to any session. -/
theorem TableScoped.empty (sid : String) : TableScoped sid emptyTable :=
  fun _ _ ht => Option.noConfusion ht

/-- Lemma: `addPendingTasks` for session `sid` keeps a `sid`-scoped table scoped. -/
theorem TableScoped.addPending {sid : String} {tbl : Table} (h : TableScoped sid tbl)
    (now : Nat) (indices : List Nat) :
    TableScoped sid (addPendingTasks now sid indices tbl) := by
  intro i t ht
  rw [addPendingTasks_get] at ht
  cases htbl : tbl i with
  | some t0 =>
    rw [htbl] at ht
    obtain rfl := Option.some.inj ht
    exact h i t0 htbl
  | none =>
    rw [htbl] at ht
    by_cases hm : i ∈ indices
    · rw [if_pos hm] at ht
      obtain rfl := Option.some.inj ht
      rfl
    · rw [if_neg hm] at ht
      exact Option.noConfusion ht

/-- Lemma: `updateTaskState` against session `sid` keeps a `sid`-scoped table
scoped: a mismatched event is dropped, a matched update keeps the stored
session id, and a matched insert stores the (equal) event session id. -/
theorem TableScoped.update {sid : String} {tbl : Table} (h : TableScoped sid tbl)
    (now : Nat) (e : WsEvent) : TableScoped sid (updateTaskState now sid e tbl) := by
  cases e with
  | SessionClosed a b => exact h
  | TaskStateChanged esid tid idx stateStr dur err =>
    by_cases hes : esid = sid
    · subst hes
      intro i t ht
      rw [updateTaskState_same_session] at ht
      cases htbl : tbl idx with
      | some task =>
        simp only [htbl] at ht
        by_cases hts : task.session_id = esid
        · rw [if_neg (not_not_intro hts), insertTask_get] at ht
          by_cases hii : i = idx
          · rw [if_pos hii] at ht
            obtain rfl := Option.some.inj ht
            exact hts
          · rw [if_neg hii] at ht
            exact h i t ht
        · rw [if_pos hts] at ht
          exact h i t ht
      | none =>
        simp only [htbl] at ht
        rw [insertTask_get] at ht
        by_cases hii : i = idx
        · rw [if_pos hii] at ht
          obtain rfl := Option.some.inj ht
          rfl
        · rw [if_neg hii] at ht
          exact h i t ht
    · rw [updateTaskState_other_session hes now tid idx stateStr dur err tbl]
      exact h

/-- Lemma: `cleanupStalePending` keeps a scoped table scoped (survivors are
unchanged). -/
theorem TableScoped.cleanup {sid : String} {tbl : Table} (h : TableScoped sid tbl)
    (now timeout : Nat) : TableScoped sid (cleanupStalePending now timeout tbl) := by
  intro i t ht
  simp only [cleanupStalePending] at ht
  cases htbl : tbl i with
  | none => rw [htbl] at ht; exact Option.noConfusion ht
  | some task =>
    simp only [htbl] at ht
    by_cases hc : task.state = TaskState.Pending ∧ now - task.created_at > timeout
    · rw [if_pos hc] at ht
      exact Option.noConfusion ht
    · rw [if_neg hc] at ht
      obtain rfl := Option.some.inj ht
      exact h i task htbl

/-- An acknowledgement step never changes an entry's session id. -/
theorem ackStep_session_id (i : Nat) (s : SegmentTask) (info : TaskInfo) :
    (ackStep i s info).session_id = s.session_id := by
  rw [ackStep]
  split <;> rfl

/-- A fold of acknowledgement steps never changes an entry's session id. -/
theorem foldl_ackStep_session_id (i : Nat) (acks : List TaskInfo) :
    ∀ s : SegmentTask, (acks.foldl (ackStep i) s).session_id = s.session_id := by
  induction acks with
  | nil => intro s; rfl
  | cons a rest ih =>
    intro s
    rw [List.foldl_cons, ih, ackStep_session_id]

/-- Lemma: `applyInferAcks` keeps a scoped table scoped. -/
theorem TableScoped.inferAcks {sid : String} {tbl : Table} (h : TableScoped sid tbl)
    (acks : List TaskInfo) : TableScoped sid (applyInferAcks acks tbl) := by
  intro i t ht
  rw [applyInferAcks_get] at ht
  cases htbl : tbl i with
  | none => rw [htbl] at ht; exact Option.noConfusion ht
  | some seg =>
    rw [htbl, Option.map_some'] at ht
    obtain rfl := Option.some.inj ht
    rw [foldl_ackStep_session_id]
    exact h i seg htbl

/-- Lemma: `handlePlayStarted` installs a fresh session over an empty table. -/
theorem sessionScoped_playStarted (sid : String) (nid vid idx : Nat) (st : EngineState) :
    SessionScoped (handlePlayStarted sid nid vid idx st).1 := by
  intro s hs i t ht
  have ht2 : emptyTable i = some t := ht
  exact Option.noConfusion ht2

/-- On a matching seek, the result has the cursor-updated session and the
fresh Pending window table. -/
theorem seekCompleted_match_session (now : Nat) (sid : String) (idx : Nat)
    (st : EngineState) (session : CurrentSession)
    (hcs : st.current_session = some session) (hm : session.session_id = sid) :
    (handleSeekCompleted now sid idx st).1.current_session
        = some { session with current_index := idx } ∧
    ∀ i, (handleSeekCompleted now sid idx st).1.task_manager.tasks i =
      if i ∈ (st.task_manager.clear).calculate_prefetch_range idx
          (st.total_segments % u32Mod)
      then some (pendingTask now sid i) else none := by
  constructor
  · simp [handleSeekCompleted, hcs, hm]
  · intro i
    simp only [handleSeekCompleted, hcs, hm, if_pos]
    split
    · next he =>
      have hnil : (st.task_manager.clear).calculate_prefetch_range idx
          (st.total_segments % u32Mod) = [] := List.isEmpty_iff.mp he
      rw [hnil]
      simp [TaskManager.clear, emptyTable]
    · next he =>
      show addPendingTasks now sid
          ((st.task_manager.clear).calculate_prefetch_range idx (st.total_segments % u32Mod))
          emptyTable i = _
      rw [addPendingTasks_empty]

/-- A seek acknowledgement not matching the active session changes neither
session nor table. -/
theorem seekCompleted_frame (now : Nat) (sid : String) (idx : Nat) (st : EngineState)
    (hmm : ∀ session, st.current_session = some session → session.session_id ≠ sid) :
    (handleSeekCompleted now sid idx st).1.current_session = st.current_session ∧
    (handleSeekCompleted now sid idx st).1.task_manager = st.task_manager := by
  cases hcs : st.current_session with
  | none => constructor <;> simp [handleSeekCompleted, hcs]
  | some session =>
    have hne := hmm session hcs
    constructor <;> simp [handleSeekCompleted, hcs, hne]

/-- Lemma: `handleSeekCompleted` preserves the session-scope invariant. -/
theorem sessionScoped_seekCompleted (now : Nat) (sid : String) (idx : Nat)
    (st : EngineState) (h : SessionScoped st) :
    SessionScoped (handleSeekCompleted now sid idx st).1 := by
  by_cases hmatch : ∃ session, st.current_session = some session ∧ session.session_id = sid
  · obtain ⟨session, hcs, hm⟩ := hmatch
    obtain ⟨hsess, htab⟩ := seekCompleted_match_session now sid idx st session hcs hm
    intro s hs i t ht
    rw [hsess] at hs
    obtain rfl := Option.some.inj hs
    rw [htab i] at ht
    by_cases hmem : i ∈ (st.task_manager.clear).calculate_prefetch_range idx
        (st.total_segments % u32Mod)
    · rw [if_pos hmem] at ht
      obtain rfl := Option.some.inj ht
      exact hm.symm
    · rw [if_neg hmem] at ht
      exact Option.noConfusion ht
  · have hmm : ∀ session, st.current_session = some session → session.session_id ≠ sid :=
      fun session hcs hm => hmatch ⟨session, hcs, hm⟩
    obtain ⟨hsess, htab⟩ := seekCompleted_frame now sid idx st hmm
    intro s hs i t ht
    rw [hsess] at hs
    rw [htab] at ht
    exact h s hs i t ht

/-- On a matching voice change, the result has the voice-updated session
and the fresh Pending window table at the unchanged cursor. -/
theorem voiceChanged_match_session (now : Nat) (sid : String) (vid : Nat)
    (st : EngineState) (session : CurrentSession)
    (hcs : st.current_session = some session) (hm : session.session_id = sid) :
    (handleVoiceChanged now sid vid st).1.current_session
        = some { session with voice_id := vid } ∧
    ∀ i, (handleVoiceChanged now sid vid st).1.task_manager.tasks i =
      if i ∈ (st.task_manager.clear).calculate_prefetch_range session.current_index
          (st.total_segments % u32Mod)
      then some (pendingTask now sid i) else none := by
  constructor
  · simp [handleVoiceChanged, hcs, hm]
  · intro i
    simp only [handleVoiceChanged, hcs, hm, if_pos]
    split
    · next he =>
      have hnil : (st.task_manager.clear).calculate_prefetch_range session.current_index
          (st.total_segments % u32Mod) = [] := List.isEmpty_iff.mp he
      rw [hnil]
      simp [TaskManager.clear, emptyTable]
    · next he =>
      show addPendingTasks now sid
          ((st.task_manager.clear).calculate_prefetch_range session.current_index
            (st.total_segments % u32Mod))
          emptyTable i = _
      rw [addPendingTasks_empty]

/-- A voice-change acknowledgement not matching the active session changes
neither session nor table. -/
theorem voiceChanged_frame (now : Nat) (sid : String) (vid : Nat) (st : EngineState)
    (hmm : ∀ session, st.current_session = some session → session.session_id ≠ sid) :
    (handleVoiceChanged now sid vid st).1.current_session = st.current_session ∧
    (handleVoiceChanged now sid vid st).1.task_manager = st.task_manager := by
  cases hcs : st.current_session with
  | none => constructor <;> simp [handleVoiceChanged, hcs]
  | some session =>
    have hne := hmm session hcs
    constructor <;> simp [handleVoiceChanged, hcs, hne]

/-- Lemma: `handleVoiceChanged` preserves the session-scope invariant. -/
theorem sessionScoped_voiceChanged (now : Nat) (sid : String) (vid : Nat)
    (st : EngineState) (h : SessionScoped st) :
    SessionScoped (handleVoiceChanged now sid vid st).1 := by
  by_cases hmatch : ∃ session, st.current_session = some session ∧ session.session_id = sid
  · obtain ⟨session, hcs, hm⟩ := hmatch
    obtain ⟨hsess, htab⟩ := voiceChanged_match_session now sid vid st session hcs hm
    intro s hs i t ht
    rw [hsess] at hs
    obtain rfl := Option.some.inj hs
    rw [htab i] at ht
    by_cases hmem : i ∈ (st.task_manager.clear).calculate_prefetch_range
        session.current_index (st.total_segments % u32Mod)
    · rw [if_pos hmem] at ht
      obtain rfl := Option.some.inj ht
      exact hm.symm
    · rw [if_neg hmem] at ht
      exact Option.noConfusion ht
  · have hmm : ∀ session, st.current_session = some session → session.session_id ≠ sid :=
      fun session hcs hm => hmatch ⟨session, hcs, hm⟩
    obtain ⟨hsess, htab⟩ := voiceChanged_frame now sid vid st hmm
    intro s hs i t ht
    rw [hsess] at hs
    rw [htab] at ht
    exact h s hs i t ht

/-- Lemma: `handleSessionClosed` drops the session, so the invariant holds
vacuously. -/
theorem sessionScoped_sessionClosed (st : EngineState) :
    SessionScoped (handleSessionClosed st).1 := by
  intro s hs i t ht
  have hs2 : (none : Option CurrentSession) = some s := hs
  exact Option.noConfusion hs2

/-- Lemma: `handleSessionClosedByServer` preserves the session-scope invariant. -/
theorem sessionScoped_sessionClosedByServer (sid reason : String) (st : EngineState)
    (h : SessionScoped st) : SessionScoped (handleSessionClosedByServer sid reason st).1 := by
  cases hcs : st.current_session with
  | none =>
    intro s hs i t ht
    have heq : handleSessionClosedByServer sid reason st = (st, []) := by
      simp [handleSessionClosedByServer, hcs]
    rw [heq] at hs ht
    exact h s hs i t ht
  | some session =>
    by_cases hm : session.session_id = sid
    · intro s hs i t ht
      have heq : (handleSessionClosedByServer sid reason st).1.current_session = none := by
        simp [handleSessionClosedByServer, hcs, hm]
      rw [heq] at hs
      exact Option.noConfusion hs
    · intro s hs i t ht
      have heq : handleSessionClosedByServer sid reason st = (st, []) := by
        simp [handleSessionClosedByServer, hcs, hm]
      rw [heq] at hs ht
      exact h s hs i t ht

/-- Lemma: `handleInferSubmitted` preserves the session-scope invariant. -/
theorem sessionScoped_inferSubmitted (acks : List TaskInfo) (st : EngineState)
    (h : SessionScoped st) : SessionScoped (handleInferSubmitted acks st).1 := by
  intro s hs i t ht
  rw [handleInferSubmitted_fst] at hs ht
  have hs2 : st.current_session = some s := hs
  have ht2 : applyInferAcks acks st.task_manager.tasks i = some t := ht
  exact TableScoped.inferAcks (h s hs2) acks i t ht2

/-- The state component of `handleWsTaskStateChanged`. -/
theorem handleWsTaskStateChanged_fst (now : Nat) (e : WsEvent) (st : EngineState) :
    (handleWsTaskStateChanged now e st).1 =
      match st.current_session with
      | some s =>
        { st with task_manager := st.task_manager.update_task_state now s.session_id e }
      | none => st := rfl

/-- Lemma: `handleWsTaskStateChanged` preserves the session-scope invariant. -/
theorem sessionScoped_ws (now : Nat) (e : WsEvent) (st : EngineState)
    (h : SessionScoped st) : SessionScoped (handleWsTaskStateChanged now e st).1 := by
  cases hcs : st.current_session with
  | none =>
    intro s hs i t ht
    rw [handleWsTaskStateChanged_fst, hcs] at hs ht
    exact h s hs i t ht
  | some s0 =>
    intro s hs i t ht
    rw [handleWsTaskStateChanged_fst, hcs] at hs ht
    have hs2 : some s0 = some s := hs
    obtain rfl := Option.some.inj hs2
    have ht2 : updateTaskState now s0.session_id e st.task_manager.tasks i = some t := ht
    exact TableScoped.update (h s0 hcs) now e i t ht2

/-- Lemma: `handleAudioFinished` preserves the session-scope invariant. -/
theorem sessionScoped_audioFinished (now : Nat) (st : EngineState)
    (h : SessionScoped st) : SessionScoped (handleAudioFinished now st).1 := by
  by_cases hp : st.playback_state = PlaybackState.Playing
  case neg =>
    intro s hs i t ht
    have heq : handleAudioFinished now st = (st, []) := by
      simp [handleAudioFinished, hp]
    rw [heq] at hs ht
    exact h s hs i t ht
  case pos =>
    cases hcs : st.current_session with
    | none =>
      intro s hs i t ht
      have heq : handleAudioFinished now st = (st, []) := by
        simp [handleAudioFinished, hp, hcs]
      rw [heq] at hs ht
      exact h s hs i t ht
    | some session =>
      by_cases hge : st.current_segment_index + 1 ≥ st.total_segments
      · intro s hs i t ht
        have heq : (handleAudioFinished now st).1
            = { st with playback_state := .Stopped } := by
          simp [handleAudioFinished, hp, hcs, hge]
        rw [heq] at hs ht
        exact h s hs i t ht
      · intro s hs i t ht
        have hsess : (handleAudioFinished now st).1.current_session =
            some { session with
                    current_index := (st.current_segment_index + 1) % u32Mod } := by
          simp [handleAudioFinished, hp, hcs, hge]
        have htm : (handleAudioFinished now st).1.task_manager =
            (if (st.task_manager.calculate_prefetch_range
                ((st.current_segment_index + 1) % u32Mod)
                (st.total_segments % u32Mod)).isEmpty then st.task_manager
             else st.task_manager.add_pending_tasks now session.session_id
               (st.task_manager.calculate_prefetch_range
                 ((st.current_segment_index + 1) % u32Mod)
                 (st.total_segments % u32Mod))) := by
          simp [handleAudioFinished, hp, hcs, hge]
        rw [hsess] at hs
        obtain rfl := Option.some.inj hs
        rw [htm] at ht
        show t.session_id = session.session_id
        by_cases he : (st.task_manager.calculate_prefetch_range
            ((st.current_segment_index + 1) % u32Mod)
            (st.total_segments % u32Mod)).isEmpty
        · rw [if_pos he] at ht
          exact h session hcs i t ht
        · rw [if_neg he] at ht
          have ht2 : addPendingTasks now session.session_id
              (st.task_manager.calculate_prefetch_range
                ((st.current_segment_index + 1) % u32Mod)
                (st.total_segments % u32Mod)) st.task_manager.tasks i = some t := ht
          exact TableScoped.addPending (h session hcs) now _ i t ht2

/-- Lemma: `prefetchTick` preserves the session-scope invariant. -/
theorem sessionScoped_prefetchTick (now : Nat) (st : EngineState)
    (h : SessionScoped st) : SessionScoped (prefetchTick now st).1 := by
  by_cases hb : st.playback_state ≠ PlaybackState.Playing
      ∧ st.playback_state ≠ PlaybackState.Loading
  · intro s hs i t ht
    have heq : prefetchTick now st = (st, []) := by
      simp [prefetchTick, hb.1, hb.2]
    rw [heq] at hs ht
    exact h s hs i t ht
  · cases hcs : st.current_session with
    | none =>
      intro s hs i t ht
      have heq : prefetchTick now st = (st, []) := by
        simp [prefetchTick, hcs]
      rw [heq] at hs ht
      exact h s hs i t ht
    | some session =>
      by_cases he : (st.task_manager.calculate_prefetch_range session.current_index
          (st.total_segments % u32Mod)).isEmpty
      · intro s hs i t ht
        have heq : prefetchTick now st = (st, []) := by
          simp [prefetchTick, hb, hcs, he]
        rw [heq] at hs ht
        exact h s hs i t ht
      · intro s hs i t ht
        have heq : (prefetchTick now st).1 =
            { st with
                task_manager := st.task_manager.add_pending_tasks now session.session_id
                  (st.task_manager.calculate_prefetch_range session.current_index
                    (st.total_segments % u32Mod)) } := by
          simp [prefetchTick, hb, hcs, he]
        rw [heq] at hs ht
        have hs2 : st.current_session = some s := hs
        have hss : session = s := by
          rw [hcs] at hs2
          exact Option.some.inj hs2
        subst hss
        have ht2 : addPendingTasks now session.session_id
            (st.task_manager.calculate_prefetch_range session.current_index
              (st.total_segments % u32Mod)) st.task_manager.tasks i = some t := ht
        exact TableScoped.addPending (h session hcs) now _ i t ht2

/-- Lemma: `cleanupTick` preserves the session-scope invariant. -/
theorem sessionScoped_cleanupTick (now : Nat) (st : EngineState)
    (h : SessionScoped st) : SessionScoped (cleanupTick now st).1 := by
  intro s hs i t ht
  have hs2 : st.current_session = some s := hs
  have ht2 : cleanupStalePending now 30 st.task_manager.tasks i = some t := ht
  exact TableScoped.cleanup (h s hs2) now 30 i t ht2

/-- Lemma: `handleSegmentsLoaded` preserves the session-scope invariant. -/
theorem sessionScoped_segmentsLoaded (now real_total : Nat) (flag : Bool)
    (st : EngineState) (h : SessionScoped st) :
    SessionScoped (handleSegmentsLoaded now real_total flag st).1 := by
  by_cases hf : flag = true
  · cases hcs : st.current_session with
    | none =>
      intro s hs i t ht
      have heq : (handleSegmentsLoaded now real_total flag st).1 =
          { st with total_segments := real_total, error := none } := by
        simp [handleSegmentsLoaded, hf, hcs]
      rw [heq] at hs ht
      exact h s hs i t ht
    | some session =>
      by_cases he : (st.task_manager.calculate_prefetch_range session.current_index
          (real_total % u32Mod)).isEmpty
      · intro s hs i t ht
        have heq : (handleSegmentsLoaded now real_total flag st).1 =
            { st with total_segments := real_total, error := none } := by
          simp [handleSegmentsLoaded, hf, hcs, he]
        rw [heq] at hs ht
        exact h s hs i t ht
      · intro s hs i t ht
        have heq : (handleSegmentsLoaded now real_total flag st).1 =
            { st with
                total_segments := real_total
                error := none
                task_manager := st.task_manager.add_pending_tasks now session.session_id
                  (st.task_manager.calculate_prefetch_range session.current_index
                    (real_total % u32Mod)) } := by
          simp [handleSegmentsLoaded, hf, hcs, he]
        rw [heq] at hs ht
        have hs2 : st.current_session = some s := hs
        have hss : session = s := by
          rw [hcs] at hs2
          exact Option.some.inj hs2
        subst hss
        have ht2 : addPendingTasks now session.session_id
            (st.task_manager.calculate_prefetch_range session.current_index
              (real_total % u32Mod)) st.task_manager.tasks i = some t := ht
        exact TableScoped.addPending (h session hcs) now _ i t ht2
  · intro s hs i t ht
    have heq : (handleSegmentsLoaded now real_total flag st).1 =
        { st with total_segments := real_total, error := none } := by
      simp [handleSegmentsLoaded, hf]
    rw [heq] at hs ht
    exact h s hs i t ht

/-- One event step preserves the session-scope invariant. -/
theorem sessionScoped_step (st : EngineState) (e : Event) (h : SessionScoped st) :
    SessionScoped (step st e) := by
  cases e with
  | playStarted sid nid vid idx => exact sessionScoped_playStarted sid nid vid idx st
  | seekCompleted now sid idx => exact sessionScoped_seekCompleted now sid idx st h
  | voiceChanged now sid vid => exact sessionScoped_voiceChanged now sid vid st h
  | sessionClosed => exact sessionScoped_sessionClosed st
  | inferSubmitted acks => exact sessionScoped_inferSubmitted acks st h
  | wsTaskStateChanged now e2 => exact sessionScoped_ws now e2 st h
  | sessionClosedByServer sid reason =>
    exact sessionScoped_sessionClosedByServer sid reason st h
  | audioFinished now => exact sessionScoped_audioFinished now st h
  | prefetchTimer now => exact sessionScoped_prefetchTick now st h
  | cleanupTimer now => exact sessionScoped_cleanupTick now st h
  | segmentsLoaded now total flag => exact sessionScoped_segmentsLoaded now total flag st h

/-- C10: whenever a session is active, every task-table entry carries the
active session's id, and this invariant is preserved by every sequence of
engine events (pending insertion, push reconciliation, acknowledgements,
seeks, voice changes, session transitions, timers). -/
theorem C10_session_scope_invariant (st : EngineState) (events : List Event)
    (h : SessionScoped st) : SessionScoped (run st events) := by
  induction events generalizing st with
  | nil => exact h
  | cons e rest ih => exact ih (step st e) (sessionScoped_step st e h)

/-- C10 witness: from the initial sessionless state, a play / load / push /
finished sequence keeps the invariant. -/
theorem C10_session_scope_invariant_witness :
    SessionScoped (run
      { current_session := none
        task_manager := TaskManager.new 3
        playback_state := .Stopped
        waiting_for_audio := false
        current_segment_index := 0
        total_segments := 0
        error := none }
      [Event.playStarted "s1" 1 2 0,
       Event.segmentsLoaded 1 10 true,
       Event.wsTaskStateChanged 2 (WsEvent.TaskStateChanged "s1" "t0" 0 "ready" none none),
       Event.audioFinished 3]) :=
  C10_session_scope_invariant
    { current_session := none
      task_manager := TaskManager.new 3
      playback_state := .Stopped
      waiting_for_audio := false
      current_segment_index := 0
      total_segments := 0
      error := none }
    [Event.playStarted "s1" 1 2 0,
     Event.segmentsLoaded 1 10 true,
     Event.wsTaskStateChanged 2 (WsEvent.TaskStateChanged "s1" "t0" 0 "ready" none none),
     Event.audioFinished 3]
    (fun _ hs => Option.noConfusion hs)
